import Mathlib

/-!
Verification development for the TorBox download-management extension
(`src/search-downloads.tsx`).

The TypeScript source is shallowly embedded as follows:

* JS numbers that hold byte counts are `Nat`; ids and epoch timestamps are
  `Int`; the `progress` fraction is `ℚ` (an exact model of the real-number
  arithmetic the source performs on it).
* `created_at` is stored in the source as a string and parsed with
  `new Date(s).getTime()` before comparison; the embedding keeps the parsed
  epoch value directly (the claims under study restrict themselves to
  records whose timestamps parse).
* `Array.prototype.sort` with comparator `(a, b) => timeB - timeA` is a
  stable sort with respect to the total preorder "b.created_at ≤
  a.created_at".  Any stable sort for a total preorder produces the same
  output list, so the embedding uses `List.insertionSort`, which is stable
  and reduces inside the kernel.
* `Promise.all` over the three collection fetches either resolves with all
  three results or rejects as soon as one rejects; the embedding passes the
  three settled outcomes in as `Except` values and merges them.
* Effectful handlers (toasts, remote calls, clipboard, refresh) are
  embedded as pure functions from the settled outcome of the remote call to
  the list of observable events the handler performs, in order.
-/

namespace TorBox

/-- The three collection kinds of the remote service (`DownloadType` in
`src/api.ts`): the source tags records with `"torrent"`, `"webdl"` and
`"usenet"`. -/
inductive DownloadType
  | torrent
  | webdl
  | usenet
  deriving DecidableEq, Repr

/-- `interface BaseDownload` of the source.  `created_at` and `updated_at`
hold the epoch value of the parsed timestamp string. -/
structure BaseDownload where
  id : Int
  name : String
  size : Nat
  progress : ℚ
  download_state : String
  download_present : Bool
  download_finished : Bool
  created_at : Int
  updated_at : Int
  deriving DecidableEq, Repr

/-- `interface Torrent extends BaseDownload` with the two extra fields. -/
structure Torrent extends BaseDownload where
  hash : String
  download_speed : ℚ
  deriving DecidableEq, Repr

/-- `type WebDownload = BaseDownload`. -/
abbrev WebDownload := BaseDownload

/-- `type UsenetDownload = BaseDownload`. -/
abbrev UsenetDownload := BaseDownload

/-- `interface Download extends BaseDownload { type: DownloadType }`. -/
structure Download extends BaseDownload where
  type : DownloadType
  deriving DecidableEq, Repr

/-- `formatBytes` selects the unit by the floor logarithm of the byte count
in base 1024.  The helper mirrors `Math.floor(Math.log(bytes) / Math.log(k))`
with `k = 1024` over exact reals. -/
def unitIndex (bytes : Nat) : Nat := Nat.log 1024 bytes

/-- The unit list `const sizes = ["B", "KB", "MB", "GB", "TB"]`. -/
def sizes : List String := ["B", "KB", "MB", "GB", "TB"]

/-- `parseFloat((bytes / Math.pow(k, i)).toFixed(2))` rendered as a string:
round `num / den` to two decimals (half up, the values are positive) and
drop trailing fractional zeros, exactly as parsing and re-printing the
fixed-point literal does. -/
def trimmedFixed2 (num den : Nat) : String :=
  let n := (200 * num + den) / (2 * den)
  let ip := n / 100
  let fp := n % 100
  if fp = 0 then toString ip
  else if fp % 10 = 0 then toString ip ++ "." ++ toString (fp / 10)
  else if fp < 10 then toString ip ++ ".0" ++ toString fp
  else toString ip ++ "." ++ toString fp

/-- The unit component of the `formatBytes` output: `sizes[i]` where
`i = unitIndex bytes`.  Indexing a JS array out of range yields `undefined`,
which string concatenation renders as `"undefined"`; `List.getD` with the
`"undefined"` default reproduces that. -/
def formatBytesUnit (bytes : Nat) : String :=
  if bytes = 0 then "B" else sizes.getD (unitIndex bytes) "undefined"

/-- `function formatBytes(bytes: number): string` of the source. -/
def formatBytes (bytes : Nat) : String :=
  if bytes = 0 then "0 B"
  else
    trimmedFixed2 bytes (1024 ^ unitIndex bytes) ++ " " ++
      sizes.getD (unitIndex bytes) "undefined"

/-- `function getTypeLabel(type: DownloadType): string`. -/
def getTypeLabel (type : DownloadType) : String :=
  match type with
  | .torrent => "Torrent"
  | .webdl => "Web"
  | .usenet => "Usenet"

/-- The two Raycast colors the source uses for status tags. -/
inductive Color
  | green
  | orange
  deriving DecidableEq, Repr

/-- The accessory tag returned by `getStatusTag`. -/
structure StatusTag where
  value : String
  color : Color
  deriving DecidableEq, Repr

/-- `function getStatusTag(download: Download)`: `Ready` in green when
`download.download_finished || download.progress >= 1`, otherwise the
rounded percentage in orange.  `Math.round` is round half up, which is
`round` on `ℚ`. -/
def getStatusTag (download : Download) : StatusTag :=
  if download.download_finished || decide (1 ≤ download.progress) then
    ⟨"Ready", Color.green⟩
  else
    ⟨toString (round (download.progress * 100)) ++ "%", Color.orange⟩

/-- `function addType<T extends BaseDownload>(downloads: T[], type)`: spread
each record and attach the kind tag. -/
def addType {T : Type} (toBase : T → BaseDownload) (downloads : List T)
    (type : DownloadType) : List Download :=
  downloads.map (fun d => { toBaseDownload := toBase d, type := type })

/-- The order the comparator `(a, b) => timeB - timeA` sorts by: `a` may
stay before `b` exactly when the comparator is nonpositive, that is when
`b.created_at ≤ a.created_at`. -/
def createdDesc (a b : Download) : Prop := b.created_at ≤ a.created_at

instance : DecidableRel createdDesc :=
  fun a b => Int.decLe b.created_at a.created_at

instance : IsTotal Download createdDesc :=
  ⟨fun a b => le_total b.created_at a.created_at⟩

instance : IsTrans Download createdDesc :=
  ⟨fun _ _ _ h1 h2 => le_trans h2 h1⟩

/-- The local `allDownloads` array of `fetchAllDownloads`: the three tagged
collections concatenated in kind order (torrent, webdl, usenet). -/
def allDownloads (torrents : List Torrent) (webDownloads : List WebDownload)
    (usenetDownloads : List UsenetDownload) : List Download :=
  addType Torrent.toBaseDownload torrents .torrent ++
    addType id webDownloads .webdl ++ addType id usenetDownloads .usenet

/-- `async function fetchAllDownloads(apiKey)`: the three `fetchDownloads`
calls run under `Promise.all`, so the function rejects when any of the
three rejects and otherwise tags, concatenates and stable-sorts by
`created_at` descending.  The three settled fetch outcomes are passed in as
`Except` values (the fetches themselves live in `src/api.ts`). -/
def fetchAllDownloads (torrents : Except String (List Torrent))
    (webDownloads : Except String (List WebDownload))
    (usenetDownloads : Except String (List UsenetDownload)) :
    Except String (List Download) :=
  match torrents, webDownloads, usenetDownloads with
  | .ok ts, .ok ws, .ok us =>
      .ok ((allDownloads ts ws us).insertionSort createdDesc)
  | .error e, _, _ => .error e
  | _, .error e, _ => .error e
  | _, _, .error e => .error e

/-- `String.prototype.toLowerCase` on the character sequence (the names in
play are plain text, for which per-character lowercasing is exact). -/
def toLowerCase (s : String) : String := ⟨s.data.map Char.toLower⟩

/-- Whether the second character list occurs at the head of the first. -/
def startsWithChars : List Char → List Char → Bool
  | _, [] => true
  | [], _ :: _ => false
  | c :: cs, p :: ps => (c = p : Bool) && startsWithChars cs ps

/-- Whether `pat` occurs as a contiguous run anywhere in the list. -/
def includesChars (pat : List Char) : List Char → Bool
  | [] => startsWithChars [] pat
  | c :: cs => startsWithChars (c :: cs) pat || includesChars pat cs

/-- `String.prototype.includes`: substring containment. -/
def includes (s pat : String) : Bool := includesChars pat.data s.data

/-- The `filteredDownloads` memo of `Command`: empty when no data has
arrived, the data itself on the empty query, otherwise the name filter with
both sides lowercased. -/
def filteredDownloads (data : Option (List Download)) (searchText : String) :
    List Download :=
  match data with
  | none => []
  | some data =>
    if searchText.length = 0 then data
    else
      data.filter (fun download =>
        includes (toLowerCase download.name) (toLowerCase searchText))

/-- `isReady` of `DownloadListItem`:
`download.download_finished || download.progress >= 1`. -/
def isReady (download : Download) : Bool :=
  download.download_finished || decide (1 ≤ download.progress)

/-- The three actions a rendered `DownloadListItem` can expose. -/
inductive ItemAction
  | copyDownloadLink
  | refreshAllDownloads
  | deleteDownloadItem
  deriving DecidableEq, Repr

/-- The action panel of `DownloadListItem`: the copy-link action is
rendered only under the `isReady &&` guard, while refresh and delete are
always present. -/
def downloadListItemActions (download : Download) : List ItemAction :=
  (if isReady download then [ItemAction.copyDownloadLink] else []) ++
    [ItemAction.refreshAllDownloads, ItemAction.deleteDownloadItem]

/-- The toast severities of the host notification primitive. -/
inductive ToastStyle
  | animated
  | success
  | failure
  deriving DecidableEq, Repr

/-- Observable side effects of the handlers, in the order performed. -/
inductive Event
  | toast (style : ToastStyle) (title : String) (message : Option String)
  | remoteDelete (type : DownloadType) (id : Int)
  | remoteGetLink (type : DownloadType) (id : Int)
  | clipboardCopy (link : String)
  | refresh
  deriving DecidableEq, Repr

/-- `error instanceof Error ? error.message : "Unknown error"`: a thrown
value either carries a message or does not. -/
def errMessage (e : Option String) : String := e.getD "Unknown error"

/-- The delete handler of `DownloadListItem`, as the event trace it
performs given the settled outcome of the remote `deleteDownload` call:
animated toast, the remote call, then on success a success toast and
`onRefresh()`, on failure a failure toast with the error message. -/
def deleteDownloadAction (download : Download)
    (outcome : Except (Option String) Unit) : List Event :=
  Event.toast ToastStyle.animated "Deleting download..." none ::
    Event.remoteDelete download.type download.id ::
    match outcome with
    | .ok _ => [Event.toast ToastStyle.success "Download deleted" none, Event.refresh]
    | .error e =>
        [Event.toast ToastStyle.failure "Failed to delete download" (some (errMessage e))]

/-- The copy-link handler of `DownloadListItem`, as its event trace given
the settled outcome of the remote `getDownloadLink` call. -/
def copyDownloadLinkAction (download : Download)
    (outcome : Except (Option String) String) : List Event :=
  Event.toast ToastStyle.animated "Getting download link..." none ::
    Event.remoteGetLink download.type download.id ::
    match outcome with
    | .ok link =>
        [Event.clipboardCopy link,
         Event.toast ToastStyle.success "Download link copied!" none]
    | .error e =>
        [Event.toast ToastStyle.failure "Failed to get download link" (some (errMessage e))]

/-- The state `Command` holds: the cached download list, the loading flag,
the fetch error and the search text. -/
structure ViewState where
  data : Option (List Download)
  isLoading : Bool
  error : Option String
  searchText : String
  deriving DecidableEq, Repr

/-- Modelled from the spec: the settling transition of the data hook that
`Command` configures with `keepPreviousData: true` (the hook itself lives
in the host library, outside this repository).  On success the items are
replaced and the error cleared; on failure the error is set and the
previously held items are retained rather than cleared. -/
def onFetchSettled (s : ViewState) (result : Except String (List Download)) :
    ViewState :=
  match result with
  | .ok items => { s with data := some items, error := none, isLoading := false }
  | .error e => { s with error := some e, isLoading := false }

/-- The `if (error)` block of `Command`: a failure toast carrying the error
message is surfaced exactly when the error state is non-absent. -/
def errorToastEvents (s : ViewState) : List Event :=
  match s.error with
  | some m => [Event.toast ToastStyle.failure "Failed to fetch downloads" (some m)]
  | none => []

/-- A concrete in-progress web download used to instantiate theorems. -/
def sampleBase : BaseDownload :=
  { id := 1, name := "Big Buck Bunny", size := 1536, progress := 2/5,
    download_state := "downloading", download_present := false,
    download_finished := false, created_at := 200, updated_at := 200 }

/-- `sampleBase` tagged as a web download. -/
def sampleWeb : Download := { toBaseDownload := sampleBase, type := .webdl }

/-- A concrete completed torrent used to instantiate theorems. -/
def sampleTorrentRec : Torrent :=
  { id := 7, name := "Sintel", size := 1048576, progress := 1,
    download_state := "cached", download_present := true,
    download_finished := false, created_at := 100, updated_at := 100,
    hash := "abc123", download_speed := 0 }

/-- `sampleTorrentRec` tagged as a torrent. -/
def sampleTorrent : Download :=
  { toBaseDownload := sampleTorrentRec.toBaseDownload, type := .torrent }

/-- A concrete usenet download sharing the `created_at` of `sampleBase`. -/
def sampleUsenetRec : UsenetDownload :=
  { id := 3, name := "Elephants Dream", size := 42, progress := 1,
    download_state := "cached", download_present := true,
    download_finished := true, created_at := 200, updated_at := 201 }

/-- `sampleUsenetRec` tagged as a usenet download. -/
def sampleUsenet : Download := { toBaseDownload := sampleUsenetRec, type := .usenet }

/-- A string ending in a percent sign is never the literal `"Ready"`. -/
theorem append_percent_ne_ready (s : String) : s ++ "%" ≠ "Ready" := by
  intro h
  have hd : (s ++ "%").data = "Ready".data := by rw [h]
  have hmem : '%' ∈ "Ready".data := by
    rw [← hd]
    exact List.mem_append_right s.data (by decide)
  exact absurd hmem (by decide)

/-- The readiness Boolean is true exactly when the download is finished or
its progress has reached one. -/
theorem isReady_iff (d : Download) :
    isReady d = true ↔ (d.download_finished = true ∨ 1 ≤ d.progress) := by
  simp [isReady]

/-- On a ready download the status tag is the green `"Ready"` tag. -/
theorem getStatusTag_of_ready (d : Download)
    (h : d.download_finished = true ∨ 1 ≤ d.progress) :
    getStatusTag d = ⟨"Ready", Color.green⟩ := by
  unfold getStatusTag
  rw [if_pos (by simpa using h)]

/-- On a non-ready download the status tag is the orange percentage tag. -/
theorem getStatusTag_of_not_ready (d : Download)
    (h : ¬ (d.download_finished = true ∨ 1 ≤ d.progress)) :
    getStatusTag d = ⟨toString (round (d.progress * 100)) ++ "%", Color.orange⟩ := by
  unfold getStatusTag
  rw [if_neg (by simpa using h)]

/-- The status tag reads `"Ready"` exactly on the readiness condition. -/
theorem statusValue_ready_iff (d : Download) :
    (getStatusTag d).value = "Ready" ↔
      (d.download_finished = true ∨ 1 ≤ d.progress) := by
  by_cases h : d.download_finished = true ∨ 1 ≤ d.progress
  · rw [getStatusTag_of_ready d h]
    exact ⟨fun _ => h, fun _ => rfl⟩
  · rw [getStatusTag_of_not_ready d h]
    exact ⟨fun hx => absurd hx (append_percent_ne_ready _), fun hx => absurd hx h⟩

/-- C1 (amended): for every byte count below `1024 ^ 5` the unit of the
`formatBytes` output is one of B, KB, MB, GB, TB, the output splits as a
value, a space and that unit, and the three concrete examples hold.  The
unit index `floor(log(bytes) / log(1024))` is not clamped by the code, so
the bound on `bytes` is needed (see the counterexample). -/
theorem formatBytes_unit_and_examples (bytes : Nat) (h : bytes < 1024 ^ 5) :
    formatBytesUnit bytes ∈ sizes ∧
    (∃ v, formatBytes bytes = v ++ " " ++ formatBytesUnit bytes) ∧
    formatBytes 0 = "0 B" ∧
    formatBytes 1536 = "1.5 KB" ∧
    formatBytes 1048576 = "1 MB" := by
  have h1536 : unitIndex 1536 = 1 :=
    Nat.log_eq_of_pow_le_of_lt_pow (by norm_num) (by norm_num)
  have h1mb : unitIndex 1048576 = 2 :=
    Nat.log_eq_of_pow_le_of_lt_pow (by norm_num) (by norm_num)
  refine ⟨?_, ?_, rfl, ?_, ?_⟩
  · by_cases h0 : bytes = 0
    · simp only [formatBytesUnit, if_pos h0]
      decide
    · have hlt : unitIndex bytes < 5 := Nat.log_lt_of_lt_pow h0 h
      have h5 : unitIndex bytes = 0 ∨ unitIndex bytes = 1 ∨ unitIndex bytes = 2 ∨
          unitIndex bytes = 3 ∨ unitIndex bytes = 4 := by omega
      rcases h5 with h5 | h5 | h5 | h5 | h5 <;>
        · simp only [formatBytesUnit, if_neg h0, h5]
          decide
  · by_cases h0 : bytes = 0
    · exact ⟨"0", by simp [formatBytes, formatBytesUnit, h0]⟩
    · exact ⟨trimmedFixed2 bytes (1024 ^ unitIndex bytes),
        by simp [formatBytes, formatBytesUnit, h0]⟩
  · unfold formatBytes
    rw [if_neg (by norm_num), h1536]
    rfl
  · unfold formatBytes
    rw [if_neg (by norm_num), h1mb]
    rfl

/-- C1 witness: the amended statement instantiated at 1536 bytes. -/
theorem formatBytes_unit_and_examples_witness :
    formatBytesUnit 1536 ∈ sizes ∧
    (∃ v, formatBytes 1536 = v ++ " " ++ formatBytesUnit 1536) ∧
    formatBytes 0 = "0 B" ∧
    formatBytes 1536 = "1.5 KB" ∧
    formatBytes 1048576 = "1 MB" :=
  formatBytes_unit_and_examples 1536 (by norm_num)

/-- C1 counterexample: at `1024 ^ 5` bytes (one pebibyte) the unit index is
5, past the end of the unit list, and the rendered unit is the JS
`"undefined"` rather than any of B, KB, MB, GB, TB — the claimed clamping
does not happen. -/
theorem formatBytes_overflow_counterexample :
    formatBytes (1024 ^ 5) = "1 undefined" ∧
    formatBytesUnit (1024 ^ 5) = "undefined" ∧
    "undefined" ∉ sizes := by
  have h0 : (1024 ^ 5 : ℕ) ≠ 0 := by norm_num
  have hlog : unitIndex (1024 ^ 5) = 5 := Nat.log_pow (by norm_num) 5
  refine ⟨?_, ?_, by decide⟩
  · unfold formatBytes
    rw [if_neg h0, hlog]
    rfl
  · unfold formatBytesUnit
    rw [if_neg h0, hlog]
    rfl

/-- C2: the status tag reads `"Ready"` (with the green success color) if
and only if the download is finished or its progress is at least one;
otherwise it is the rounded percentage with the orange warning color. -/
theorem getStatusTag_spec (d : Download) :
    ((getStatusTag d).value = "Ready" ↔
      (d.download_finished = true ∨ 1 ≤ d.progress)) ∧
    (d.download_finished = true ∨ 1 ≤ d.progress →
      getStatusTag d = ⟨"Ready", Color.green⟩) ∧
    (¬ (d.download_finished = true ∨ 1 ≤ d.progress) →
      getStatusTag d = ⟨toString (round (d.progress * 100)) ++ "%", Color.orange⟩) :=
  ⟨statusValue_ready_iff d, getStatusTag_of_ready d, getStatusTag_of_not_ready d⟩

/-- C2 witness: the 40 percent web download renders as the orange `"40%"`
tag and the completed usenet download as the green `"Ready"` tag. -/
theorem getStatusTag_spec_witness :
    getStatusTag sampleWeb = ⟨"40%", Color.orange⟩ ∧
    getStatusTag sampleUsenet = ⟨"Ready", Color.green⟩ := by
  constructor
  · have h := (getStatusTag_spec sampleWeb).2.2 (by
      rintro (hf | hp)
      · simp [sampleWeb, sampleBase] at hf
      · norm_num [sampleWeb, sampleBase] at hp)
    rw [h]
    have hr : round (sampleWeb.progress * 100) = 40 := by
      norm_num [sampleWeb, sampleBase, round_eq]
    rw [hr]
    rfl
  · exact (getStatusTag_spec sampleUsenet).2.1 (Or.inl rfl)

/-- When all three fetches succeed the aggregated list is the stable sort
of the tagged concatenation.  Helper shared by the ordering and stability
theorems. -/
theorem fetchAllDownloads_ok (ts : List Torrent) (ws : List WebDownload)
    (us : List UsenetDownload) (out : List Download)
    (h : fetchAllDownloads (.ok ts) (.ok ws) (.ok us) = .ok out) :
    out = (allDownloads ts ws us).insertionSort createdDesc := by
  unfold fetchAllDownloads at h
  exact (Except.ok.injEq _ _ ▸ h).symm

/-- C3: when all three fetches succeed, any two positions of the merged
output holding distinct created-at stamps are ordered most recent first. -/
theorem fetchAllDownloads_sorted_desc (ts : List Torrent) (ws : List WebDownload)
    (us : List UsenetDownload) (out : List Download)
    (h : fetchAllDownloads (.ok ts) (.ok ws) (.ok us) = .ok out)
    (i j : Fin out.length) (hij : i < j)
    (hne : (out.get i).created_at ≠ (out.get j).created_at) :
    (out.get j).created_at < (out.get i).created_at := by
  have hle : createdDesc (out.get i) (out.get j) := by
    have hout := fetchAllDownloads_ok ts ws us out h
    subst hout
    exact (List.sorted_insertionSort createdDesc _).rel_get_of_lt hij
  exact lt_of_le_of_ne hle (fun hc => hne (hc.symm))

/-- C3 witness: one torrent created at 100 and one web download created at
200 aggregate with the web download first. -/
theorem fetchAllDownloads_sorted_desc_witness :
    ([sampleWeb, sampleTorrent].get ⟨1, by decide⟩).created_at <
      ([sampleWeb, sampleTorrent].get ⟨0, by decide⟩).created_at :=
  fetchAllDownloads_sorted_desc [sampleTorrentRec] [sampleBase] []
    [sampleWeb, sampleTorrent] rfl ⟨0, by decide⟩ ⟨1, by decide⟩
    (by decide) (by decide)

/-- C4: aggregation is stable on created-at ties — a pair of records that
share their created-at stamp and appear in some order in the tagged
concatenation (torrent, web, usenet) appears in that same order in the
merged output. -/
theorem fetchAllDownloads_stable (ts : List Torrent) (ws : List WebDownload)
    (us : List UsenetDownload) (out : List Download)
    (h : fetchAllDownloads (.ok ts) (.ok ws) (.ok us) = .ok out)
    (a b : Download) (hab : a.created_at = b.created_at)
    (hsub : [a, b].Sublist (allDownloads ts ws us)) :
    [a, b].Sublist out := by
  have hout := fetchAllDownloads_ok ts ws us out h
  subst hout
  exact List.pair_sublist_insertionSort (le_of_eq hab.symm) hsub

/-- C4 witness: a web and a usenet download both created at 200 keep the
concatenation order (web before usenet) in the aggregated output. -/
theorem fetchAllDownloads_stable_witness :
    [sampleWeb, sampleUsenet].Sublist [sampleWeb, sampleUsenet] :=
  fetchAllDownloads_stable [] [sampleBase] [sampleUsenetRec]
    [sampleWeb, sampleUsenet] rfl sampleWeb sampleUsenet rfl
    (List.Sublist.refl _)

/-- C5: aggregation is all or nothing — it returns a list exactly when all
three fetches succeeded, and fails exactly when at least one fetch failed,
so no partial list is ever produced. -/
theorem fetchAllDownloads_all_or_nothing (torrents : Except String (List Torrent))
    (webDownloads : Except String (List WebDownload))
    (usenetDownloads : Except String (List UsenetDownload)) :
    ((∃ l, fetchAllDownloads torrents webDownloads usenetDownloads = .ok l) ↔
      (∃ ts, torrents = .ok ts) ∧ (∃ ws, webDownloads = .ok ws) ∧
        (∃ us, usenetDownloads = .ok us)) ∧
    ((∃ e, fetchAllDownloads torrents webDownloads usenetDownloads = .error e) ↔
      (∃ e, torrents = .error e) ∨ (∃ e, webDownloads = .error e) ∨
        (∃ e, usenetDownloads = .error e)) := by
  rcases torrents with e1 | ts <;> rcases webDownloads with e2 | ws <;>
    rcases usenetDownloads with e3 | us <;> simp [fetchAllDownloads]

/-- Every string contains the empty pattern. -/
theorem includesChars_nil (l : List Char) : includesChars [] l = true := by
  cases l <;> simp [includesChars, startsWithChars]

/-- C6: the search filter is the identity on the empty query, returns an
order-preserving subsequence of its input, keeps only items whose
lowercased name contains the lowercased query, and is idempotent. -/
theorem filteredDownloads_spec (items : List Download) (q : String) :
    filteredDownloads (some items) "" = items ∧
    (filteredDownloads (some items) q).Sublist items ∧
    (∀ d ∈ filteredDownloads (some items) q,
      includes (toLowerCase d.name) (toLowerCase q) = true) ∧
    filteredDownloads (some (filteredDownloads (some items) q)) q =
      filteredDownloads (some items) q := by
  refine ⟨rfl, ?_, ?_, ?_⟩
  · by_cases hq : q.length = 0
    · simp only [filteredDownloads, if_pos hq]
      exact List.Sublist.refl items
    · simp only [filteredDownloads, if_neg hq]
      exact List.filter_sublist items
  · intro d hd
    by_cases hq : q.length = 0
    · have hdata : q.data = [] := List.length_eq_zero.mp hq
      show includesChars (toLowerCase q).data (toLowerCase d.name).data = true
      simp only [toLowerCase, hdata, List.map_nil]
      exact includesChars_nil _
    · simp only [filteredDownloads, if_neg hq] at hd
      exact @List.of_mem_filter _
        (fun download => includes (toLowerCase download.name) (toLowerCase q))
        d items hd
  · by_cases hq : q.length = 0
    · simp only [filteredDownloads, if_pos hq]
    · simp only [filteredDownloads, if_neg hq]
      exact List.filter_eq_self.mpr (fun d hd =>
        @List.of_mem_filter _
          (fun download => includes (toLowerCase download.name) (toLowerCase q))
          d items hd)

/-- C6 witness: the filter instantiated on the sample list with the query
`"bunny"`, which matches `"Big Buck Bunny"` case-insensitively. -/
theorem filteredDownloads_spec_witness :
    (filteredDownloads (some [sampleWeb]) "bunny").Sublist [sampleWeb] ∧
    includes (toLowerCase sampleWeb.name) (toLowerCase "bunny") = true ∧
    filteredDownloads (some []) "" = [] :=
  ⟨(filteredDownloads_spec [sampleWeb] "bunny").2.1,
   (filteredDownloads_spec [sampleWeb] "bunny").2.2.1 sampleWeb
     (List.mem_singleton.mpr rfl),
   (filteredDownloads_spec [] "bunny").1⟩

/-- C7: the copy-link action is present in the rendered item actions if and
only if the item is ready, readiness coincides with the status tag reading
`"Ready"`, and the gating Boolean is literally the readiness rule of the
status tag. -/
theorem copyLink_offered_iff_ready (d : Download) :
    (ItemAction.copyDownloadLink ∈ downloadListItemActions d ↔ isReady d = true) ∧
    (isReady d = true ↔ (getStatusTag d).value = "Ready") ∧
    isReady d = (d.download_finished || decide (1 ≤ d.progress)) := by
  refine ⟨?_, (isReady_iff d).trans (statusValue_ready_iff d).symm, rfl⟩
  by_cases h : isReady d = true
  · simp [downloadListItemActions, h]
  · simp [downloadListItemActions, h]

/-- C8: the delete handler first emits the animated pending toast, then
performs the remote delete keyed by the item kind and id; on success it
emits the success toast and then triggers a refresh; on failure it emits a
failure toast carrying the error message and performs no refresh. -/
theorem deleteDownloadAction_spec (d : Download)
    (outcome : Except (Option String) Unit) :
    (deleteDownloadAction d outcome).take 2 =
      [Event.toast ToastStyle.animated "Deleting download..." none,
       Event.remoteDelete d.type d.id] ∧
    (outcome = Except.ok () →
      deleteDownloadAction d outcome =
        [Event.toast ToastStyle.animated "Deleting download..." none,
         Event.remoteDelete d.type d.id,
         Event.toast ToastStyle.success "Download deleted" none,
         Event.refresh]) ∧
    (∀ e, outcome = Except.error e →
      deleteDownloadAction d outcome =
        [Event.toast ToastStyle.animated "Deleting download..." none,
         Event.remoteDelete d.type d.id,
         Event.toast ToastStyle.failure "Failed to delete download"
           (some (errMessage e))] ∧
      Event.refresh ∉ deleteDownloadAction d outcome) := by
  rcases outcome with e | u
  · refine ⟨rfl, fun hc => Except.noConfusion hc, fun e2 he => ?_⟩
    have he2 : e = e2 := Except.error.injEq _ _ ▸ he
    subst he2
    refine ⟨rfl, ?_⟩
    simp [deleteDownloadAction]
  · cases u
    exact ⟨rfl, fun _ => rfl, fun e2 he => Except.noConfusion he⟩

/-- C8 witness: a failing delete on the sample download produces exactly
the pending toast, the remote call and the failure toast, with no refresh. -/
theorem deleteDownloadAction_spec_witness :
    deleteDownloadAction sampleWeb (Except.error (some "Network error")) =
      [Event.toast ToastStyle.animated "Deleting download..." none,
       Event.remoteDelete DownloadType.webdl 1,
       Event.toast ToastStyle.failure "Failed to delete download"
         (some "Network error")] ∧
    Event.refresh ∉ deleteDownloadAction sampleWeb (Except.error (some "Network error")) :=
  (deleteDownloadAction_spec sampleWeb (Except.error (some "Network error"))).2.2
    (some "Network error") rfl

/-- C9: when a fetch settles with an error the view keeps the previously
held items, records the error, surfaces the failure toast with the error
message, and the visible filtered list is unchanged for every query. -/
theorem fetchFailure_keeps_items (s : ViewState) (e : String) :
    (onFetchSettled s (.error e)).data = s.data ∧
    (onFetchSettled s (.error e)).error = some e ∧
    errorToastEvents (onFetchSettled s (.error e)) =
      [Event.toast ToastStyle.failure "Failed to fetch downloads" (some e)] ∧
    ∀ q, filteredDownloads (onFetchSettled s (.error e)).data q =
      filteredDownloads s.data q :=
  ⟨rfl, rfl, rfl, fun _ => rfl⟩

/-- C10: before any aggregation result has arrived the derived visible
list is empty for every query string, including the empty one. -/
theorem filteredDownloads_absent (searchText : String) :
    filteredDownloads none searchText = [] := rfl

end TorBox
